import Mathlib

/-!
Verification development for the i2c_video_webserver thermal-camera repository.

The Python sources are shallowly embedded:
* `src/utils/common_utils.py` — `temps_to_rescaled_uints`, `c_to_f`;
* `src/thermalcam/pi_thermal_cam.py` — the `Interpolation` enum with its
  `next`/`prev` cycling, the colormap list and `change_colormap`, the
  min/max + rescale pipeline of `_pull_raw_image`, the rendering path
  selection of `_process_raw_image`, and the retry loop of `get_mean_temp`;
* `src/thermalcam/web_server.py` — the single-slot latest-wins frame hand-off
  between `pull_images` (producer) and `generate` (stream reader).

Numpy float64 values are modelled by `RVal`: an exact rational for finite
values plus explicit NaN / +Inf / -Inf constructors.  Special-value
propagation (NaN-poisoning arithmetic, 0/0 = NaN, min/max propagating NaN)
follows IEEE-754 / numpy exactly; finite arithmetic is modelled with exact
rationals, with results whose magnitude leaves the float64 range saturating
to the corresponding infinity (float64 overflow), so only sub-ulp precision
rounding is elided.  The `np.uint8` cast is modelled as C truncation toward zero
followed by a wrap modulo 256, with NaN casting to 0 (the behaviour of both
x86 `cvttsd2si` low-byte and ARM saturating conversion for NaN).
-/

/-- Model of a numpy float64 scalar: an exact rational, or one of the IEEE
special values NaN, +Inf, -Inf. -/
inductive RVal where
  | fin (q : ℚ)
  | nan
  | pinf
  | ninf
deriving DecidableEq, Repr

/-- The largest finite float64, `(2 - 2^-52) * 2^1023 = 2^1024 - 2^971`
(stated as a literal so that it evaluates inside the kernel; see
`DBL_MAX_eq_pow`); `np.nan_to_num` replaces +Inf with this value (and -Inf
with its negation), not with 0. -/
def DBL_MAX : ℚ := 179769313486231570814527423731704356798070567525844996598917476803157260780028538760589558632766878171540458953514382464234321326889464182768467546703537516986049910576551282076245490090389328944075868508455133942304583236903222948165808559332123348274797826204144723168738177180919299881250404026184124858368

namespace RVal

/-- Round an exact arithmetic result back into float64: magnitudes beyond
`DBL_MAX` overflow to the signed infinity, everything else stays exact.
(True IEEE overflow starts half an ulp above `DBL_MAX`; nothing below
depends on that sliver.) -/
def toF64 (q : ℚ) : RVal :=
  if DBL_MAX < q then pinf else if q < -DBL_MAX then ninf else fin q

/-- IEEE subtraction: NaN poisons, Inf - Inf (same sign) = NaN, finite
results overflow to Inf beyond the float64 range. -/
def rsub : RVal → RVal → RVal
  | nan, _ => nan
  | _, nan => nan
  | fin a, fin b => toF64 (a - b)
  | fin _, pinf => ninf
  | fin _, ninf => pinf
  | pinf, fin _ => pinf
  | ninf, fin _ => ninf
  | pinf, pinf => nan
  | pinf, ninf => pinf
  | ninf, pinf => ninf
  | ninf, ninf => nan

/-- IEEE multiplication: NaN poisons, Inf * 0 = NaN, signs propagate,
finite results overflow to Inf beyond the float64 range. -/
def rmul : RVal → RVal → RVal
  | nan, _ => nan
  | _, nan => nan
  | fin a, fin b => toF64 (a * b)
  | pinf, fin b => if b = 0 then nan else if 0 < b then pinf else ninf
  | ninf, fin b => if b = 0 then nan else if 0 < b then ninf else pinf
  | fin a, pinf => if a = 0 then nan else if 0 < a then pinf else ninf
  | fin a, ninf => if a = 0 then nan else if 0 < a then ninf else pinf
  | pinf, pinf => pinf
  | pinf, ninf => ninf
  | ninf, pinf => ninf
  | ninf, ninf => pinf

/-- IEEE division: NaN poisons, 0/0 = NaN, x/0 = sign-Inf, Inf/Inf = NaN,
finite/Inf = 0. -/
def rdiv : RVal → RVal → RVal
  | nan, _ => nan
  | _, nan => nan
  | fin a, fin b =>
      if b = 0 then (if a = 0 then nan else if 0 < a then pinf else ninf)
      else toF64 (a / b)
  | fin _, pinf => fin 0
  | fin _, ninf => fin 0
  | pinf, fin b => if 0 ≤ b then pinf else ninf
  | ninf, fin b => if 0 ≤ b then ninf else pinf
  | pinf, pinf => nan
  | pinf, ninf => nan
  | ninf, pinf => nan
  | ninf, ninf => nan

/-- numpy `minimum`: NaN propagates, otherwise the extended-real minimum.
`np.min` reduces a grid with this operation. -/
def rminOp : RVal → RVal → RVal
  | nan, _ => nan
  | _, nan => nan
  | ninf, _ => ninf
  | _, ninf => ninf
  | pinf, b => b
  | a, pinf => a
  | fin a, fin b => if a ≤ b then fin a else fin b

/-- numpy `maximum`: NaN propagates, otherwise the extended-real maximum. -/
def rmaxOp : RVal → RVal → RVal
  | nan, _ => nan
  | _, nan => nan
  | pinf, _ => pinf
  | _, pinf => pinf
  | ninf, b => b
  | a, ninf => a
  | fin a, fin b => if a ≤ b then fin b else fin a

/-- The IEEE strict-less-than comparison (Python `<` on floats): false
whenever either side is NaN, and the infinities compare as extremes. -/
def rlt : RVal → RVal → Bool
  | nan, _ => false
  | _, nan => false
  | fin a, fin b => decide (a < b)
  | fin _, pinf => true
  | pinf, _ => false
  | ninf, ninf => false
  | ninf, _ => true
  | fin _, ninf => false

end RVal

/-- `np.nan_to_num` with default arguments: NaN becomes 0, +Inf becomes the
largest finite float, -Inf its negation; finite values pass through. -/
def nanToNum : RVal → RVal
  | RVal.nan => RVal.fin 0
  | RVal.pinf => RVal.fin DBL_MAX
  | RVal.ninf => RVal.fin (-DBL_MAX)
  | RVal.fin q => RVal.fin q

/-- C truncation toward zero of a rational (the float-to-integer conversion
used by a C cast): floor for nonnegative values, ceiling for negative ones. -/
def ratTrunc (q : ℚ) : ℤ := if q < 0 then ⌈q⌉ else ⌊q⌋

/-- The `np.uint8` cast: truncate toward zero and wrap modulo 256; NaN casts
to 0 (the behaviour on both x86 and ARM), and so do the infinities here
(their cast is platform dependent, but no theorem below depends on it). -/
def uint8Cast : RVal → ℕ
  | RVal.fin q => ((ratTrunc q).emod 256).toNat
  | RVal.nan => 0
  | RVal.pinf => 0
  | RVal.ninf => 0

/-- One element of `(img_arr - temp_min) * 255 / (temp_max - temp_min)`
followed by the `np.uint8` cast, exactly as broadcast elementwise by
`temps_to_rescaled_uints` in `src/utils/common_utils.py`. -/
def rescaleElem (tmin tmax v : RVal) : ℕ :=
  uint8Cast (RVal.rdiv (RVal.rmul (RVal.rsub v tmin) (RVal.fin 255)) (RVal.rsub tmax tmin))

/-- The elementwise body of `temps_to_rescaled_uints`: sanitize with
`np.nan_to_num`, then rescale and cast each element. -/
def rescaleGrid (img_arr : List RVal) (tmin tmax : RVal) : List ℕ :=
  (img_arr.map nanToNum).map (rescaleElem tmin tmax)

/-- `temps_to_rescaled_uints` from `src/utils/common_utils.py`: sanitize with
`np.nan_to_num`, rescale elementwise, then `norm.shape = (24, 32)` — the
reshape raises `ValueError` unless the grid has exactly 768 elements. -/
def temps_to_rescaled_uints (img_arr : List RVal) (temp_min temp_max : RVal) :
    Except Unit (List ℕ) :=
  if img_arr.length = 24 * 32 then
    Except.ok (rescaleGrid img_arr temp_min temp_max)
  else
    Except.error ()

/-- `c_to_f` from `src/utils/common_utils.py`. -/
def c_to_f (temp : ℚ) : ℚ := (9 / 5) * temp + 32

/-- `np.min` over a (nonempty) grid: reduce with NaN-propagating minimum.
The empty case never arises for the fixed 768-element grids. -/
def npMin : List RVal → RVal
  | [] => RVal.nan
  | h :: t => t.foldl RVal.rminOp h

/-- `np.max` over a (nonempty) grid. -/
def npMax : List RVal → RVal
  | [] => RVal.nan
  | h :: t => t.foldl RVal.rmaxOp h

/-- `PiThermalCam._set_minmax_image_temp`: computes min and max of the grid
it is given (in `_pull_raw_image` this is the raw, unsanitized grid). -/
def set_minmax_image_temp (img : List RVal) : RVal × RVal := (npMin img, npMax img)

/-- `PiThermalCam._scale_image_temps`: call `temps_to_rescaled_uints` and on
`ValueError` (or `OSError`) fall back to an all-zero 768-element grid. -/
def scale_image_temps (img : List RVal) (tmin tmax : RVal) : List ℕ :=
  match temps_to_rescaled_uints img tmin tmax with
  | Except.ok norm => norm
  | Except.error _ => List.replicate (24 * 32) 0

/-- `PiThermalCam._pull_raw_image` on an already-read raw grid: first
`_set_minmax_image_temp` on the raw grid, then `_scale_image_temps` with the
recorded min/max.  Returns the normalized grid with the recorded
(temp_min, temp_max). -/
def pull_raw_image (raw : List RVal) : List ℕ × (RVal × RVal) :=
  let mm := set_minmax_image_temp raw
  (scale_image_temps raw mm.1 mm.2, mm)

/-- The `Interpolation` enum of `src/thermalcam/pi_thermal_cam.py`, in
declaration order. -/
inductive Interpolation where
  | INTER_NEAREST
  | INTER_LINEAR
  | INTER_AREA
  | INTER_CUBIC
  | INTER_LANCZOS4
  | PURE_SCIPY
  | SCIPY_CV2_MIXED
deriving DecidableEq, Repr

namespace Interpolation

/-- The payload `value` of each enum member: the cv2 interpolation constant
(`cv2.INTER_NEAREST = 0`, `INTER_LINEAR = 1`, `INTER_CUBIC = 2`,
`INTER_AREA = 3`, `INTER_LANCZOS4 = 4`) and 5, 6 for the two scipy modes.
Note `INTER_AREA` and `INTER_CUBIC` carry values 3 and 2: the payloads of
those two members are swapped relative to declaration order. -/
def value : Interpolation → ℕ
  | INTER_NEAREST => 0
  | INTER_LINEAR => 1
  | INTER_AREA => 3
  | INTER_CUBIC => 2
  | INTER_LANCZOS4 => 4
  | PURE_SCIPY => 5
  | SCIPY_CV2_MIXED => 6

end Interpolation

/-- `list(Interpolation)`: the enum members in declaration order. -/
def interpolation_list : List Interpolation :=
  [Interpolation.INTER_NEAREST, Interpolation.INTER_LINEAR, Interpolation.INTER_AREA,
   Interpolation.INTER_CUBIC, Interpolation.INTER_LANCZOS4, Interpolation.PURE_SCIPY,
   Interpolation.SCIPY_CV2_MIXED]

/-- `Interpolation.next`: `dex[(current.value + 1) % len(dex)]` with `dex`
the declaration-order list — the index is computed from the cv2 payload
value, not from the member's position. -/
def Interpolation.next (current : Interpolation) : Interpolation :=
  interpolation_list.get
    ⟨(current.value + 1) % interpolation_list.length, Nat.mod_lt _ (by decide)⟩

/-- `Interpolation.prev`: `dex[(current.value - 1) % len(dex)]`, with the
Python true modulo (so `-1 % 7 = 6`). -/
def Interpolation.prev (current : Interpolation) : Interpolation :=
  interpolation_list.get
    ⟨(((current.value : ℤ) - 1).emod (interpolation_list.length : ℤ)).toNat,
     by cases current <;> decide⟩

/-- `PiThermalCam._colormap_list`. -/
def colormap_list : List String :=
  ["jet", "bwr", "seismic", "coolwarm", "PiYG_r", "tab10", "tab20", "gnuplot2", "brg"]

/-- `PiThermalCam.change_colormap` acting on the `_colormap_index` field:
forward adds 1 and wraps `len` to 0; backward subtracts 1 and wraps a
negative index to `len - 1`. -/
def change_colormap (colormap_index : ℤ) (forward : Bool) : ℤ :=
  if forward then
    let i := colormap_index + 1
    if i = (colormap_list.length : ℤ) then 0 else i
  else
    let i := colormap_index - 1
    if i < 0 then (colormap_list.length : ℤ) - 1 else i

/-- The mutable rendering parameters of `PiThermalCam` touched by the
cycle/toggle operations. -/
structure RenderState where
  colormap_index : ℤ
  interpolation : Interpolation
  use_f : Bool
  filter_image : Bool

/-- The cycle/toggle operations reachable from the keyboard handler
(`_set_click_keyboard_events`) and the HTTP control routes. -/
inductive ControlOp where
  | cycleColormapFwd
  | cycleColormapBack
  | cycleInterpFwd
  | cycleInterpBack
  | toggleUnits
  | toggleFilter

/-- Apply one control operation to the render state, exactly as the keyboard
handler and the `/colormap/...`, `/interpolation/...`, `/units`, `/filter`
routes do. -/
def applyControl (s : RenderState) : ControlOp → RenderState
  | ControlOp.cycleColormapFwd =>
      { s with colormap_index := change_colormap s.colormap_index true }
  | ControlOp.cycleColormapBack =>
      { s with colormap_index := change_colormap s.colormap_index false }
  | ControlOp.cycleInterpFwd =>
      { s with interpolation := Interpolation.next s.interpolation }
  | ControlOp.cycleInterpBack =>
      { s with interpolation := Interpolation.prev s.interpolation }
  | ControlOp.toggleUnits => { s with use_f := !s.use_f }
  | ControlOp.toggleFilter => { s with filter_image := !s.filter_image }

/-- The image-processing primitives invoked by
`PiThermalCam._process_raw_image`, recorded as an operation trace
(`ndimage.zoom`, `cv2.applyColorMap`, `cv2.resize`, `cv2.flip(_, 1)`,
`cv2.bilateralFilter`). -/
inductive ImageOp where
  | zoom (factor : ℕ)
  | applyColorMap (cmap : String)
  | resize (w h : ℕ) (flag : ℕ)
  | flipHorizontal
  | bilateralFilter (d sigmaColor sigmaSpace : ℕ)
deriving DecidableEq, Repr

/-- `PiThermalCam._process_raw_image` as its trace of image operations:
`PURE_SCIPY` zooms by 25 then colorizes; `SCIPY_CV2_MIXED` zooms by 10,
colorizes, then resizes to (800, 600) with `cv2.INTER_CUBIC` (= 2); every
other mode colorizes then resizes to (800, 600) with its own cv2 value.
All paths then flip horizontally and, if `filter_image`, apply
`cv2.bilateralFilter(_, 15, 80, 80)`. -/
def process_raw_image (interpolation : Interpolation)
    (colormap_index : Fin colormap_list.length) (filter_image : Bool) :
    List ImageOp :=
  (if interpolation = Interpolation.PURE_SCIPY then
    [ImageOp.zoom 25, ImageOp.applyColorMap (colormap_list.get colormap_index)]
  else if interpolation = Interpolation.SCIPY_CV2_MIXED then
    [ImageOp.zoom 10, ImageOp.applyColorMap (colormap_list.get colormap_index),
     ImageOp.resize 800 600 2]
  else
    [ImageOp.applyColorMap (colormap_list.get colormap_index),
     ImageOp.resize 800 600 interpolation.value])
  ++ [ImageOp.flipHorizontal]
  ++ (if filter_image then [ImageOp.bilateralFilter 15 80 80] else [])

/-- A rendered frame as handed between threads in `web_server.py`;
its pixel content is abstracted to a byte list. -/
abbrev Frame := List ℕ

/-- One iteration of the producer loop `pull_images` in
`src/thermalcam/web_server.py`, as a function of the current shared slot
`outputFrame` and the outcome of `thermcam.update_image_frame()`: any
exception is caught (and logged), leaving `current_frame = None` so the slot
is not written; a successful frame replaces the slot under the lock. -/
def pullImagesStep (outputFrame : Option Frame) : Except String Frame → Option Frame
  | Except.ok current_frame => some current_frame
  | Except.error _ => outputFrame

/-- What one poll of the stream reader `generate` emits. -/
inductive StreamPart where
  | skip
  | part (bytes : List ℕ)
deriving DecidableEq, Repr

/-- One poll of the reader loop `generate` in `web_server.py`: with the lock
held, an empty slot makes the loop `continue` (skip); otherwise the frame is
JPEG-encoded (`cv2.imencode`, an external primitive passed in as `encode`),
a failed encode also skips, and a successful encode is yielded as one
multipart chunk. -/
def generateStep (encode : Frame → Option (List ℕ)) :
    Option Frame → StreamPart
  | none => StreamPart.skip
  | some outputFrame =>
      match encode outputFrame with
      | some encodedImage => StreamPart.part encodedImage
      | none => StreamPart.skip

/-- `np.mean` of a grid. -/
def np_mean (frame : List ℚ) : ℚ := frame.sum / (frame.length : ℚ)

/-- The retry loop of `PiThermalCam.get_mean_temp`, fuelled: attempt `k` of
`thermal_sensor.get_raw_data()` is `reads k`; a `ValueError` (the only
error the loop catches, modelled as the `Except.error` case) makes the loop
retry with the next attempt.  `none` means the fuel ran out with every
attempt failing. -/
def get_mean_temp_go (reads : ℕ → Except Unit (List ℚ)) : ℕ → ℕ → Option (ℚ × ℚ)
  | _, 0 => none
  | k, fuel + 1 =>
      match reads k with
      | Except.ok frame => some (np_mean frame, c_to_f (np_mean frame))
      | Except.error _ => get_mean_temp_go reads (k + 1) fuel

/-- `PiThermalCam.get_mean_temp` run with `fuel` loop iterations available:
returns the mean temperature in both Celsius and Fahrenheit once a read
succeeds. -/
def get_mean_temp (reads : ℕ → Except Unit (List ℚ)) (fuel : ℕ) : Option (ℚ × ℚ) :=
  get_mean_temp_go reads 0 fuel

/-- The spec-side sanitization of the C2 claim: replace only NaN readings by
0, leaving every other value in place. -/
def nanToZero : RVal → RVal
  | RVal.nan => RVal.fin 0
  | v => v

/-- The 768-element raw grid whose first reading is +Inf and whose other 767
readings are 1: the C6 counterexample input. -/
def gridWithInf : List RVal := RVal.pinf :: List.replicate 767 (RVal.fin 1)

/-- C1: publishing frame A and then frame B to the shared slot, a reader
that polls after both publishes observes B and never A; and a reader that
polls before any frame has been published observes the empty slot and skips
rather than crashing.  The reader is `generate` with the JPEG encoder
instantiated to the trivially successful one, so the observation is the
frame itself. -/
theorem broadcast_latest_wins (A B : Frame) (s0 : Option Frame) (hAB : A ≠ B) :
    generateStep some (pullImagesStep (pullImagesStep s0 (Except.ok A)) (Except.ok B)) =
      StreamPart.part B ∧
    generateStep some (pullImagesStep (pullImagesStep s0 (Except.ok A)) (Except.ok B)) ≠
      StreamPart.part A ∧
    generateStep some (none : Option Frame) = StreamPart.skip := by
  refine ⟨rfl, ?_, rfl⟩
  intro h
  simp only [pullImagesStep, generateStep] at h
  injection h with h
  exact hAB h.symm

/-- C1 witness: the latest-wins observation at the concrete frames
[0] and [1] starting from the empty slot. -/
theorem broadcast_latest_wins_witness :
    generateStep some (pullImagesStep (pullImagesStep none (Except.ok [0])) (Except.ok [1])) =
      StreamPart.part [1] ∧
    generateStep some (pullImagesStep (pullImagesStep none (Except.ok [0])) (Except.ok [1])) ≠
      StreamPart.part [0] ∧
    generateStep some (none : Option Frame) = StreamPart.skip :=
  broadcast_latest_wins [0] [1] none (by decide)

/-- C2 counterexample: the pipeline computes `temp_min` (and `temp_max`)
from the raw grid before `np.nan_to_num` runs, so the 768-element grid with
one NaN reading yields `temp_min = NaN`, while the same grid with that
reading replaced by 0 yields `temp_min = 0` — the two runs do not agree as
the claim states. -/
theorem nan_before_range_counterexample :
    (pull_raw_image (RVal.nan :: List.replicate 767 (RVal.fin 1))).2.1 = RVal.nan ∧
    (pull_raw_image (RVal.fin 0 :: List.replicate 767 (RVal.fin 1))).2.1 = RVal.fin 0 ∧
    (pull_raw_image (RVal.nan :: List.replicate 767 (RVal.fin 1))).2.1 ≠
      (pull_raw_image (RVal.fin 0 :: List.replicate 767 (RVal.fin 1))).2.1 := by
  have h1 : (pull_raw_image (RVal.nan :: List.replicate 767 (RVal.fin 1))).2.1 = RVal.nan := by
    set_option maxRecDepth 4000 in rfl
  have h2 : (pull_raw_image (RVal.fin 0 :: List.replicate 767 (RVal.fin 1))).2.1 =
      RVal.fin 0 := by
    set_option maxRecDepth 4000 in rfl
  refine ⟨h1, h2, ?_⟩
  rw [h1, h2]
  decide

/-- C2 amended: the NaN replacement happens inside `temps_to_rescaled_uints`,
after `temp_min`/`temp_max` were already computed from the raw grid: for any
fixed `temp_min`/`temp_max` arguments, the normalizer output is unchanged
when NaN readings are replaced by 0 beforehand; and `np.nan_to_num` maps
+Inf to the largest finite float, not to 0. -/
theorem nan_sanitized_inside_rescale (g : List RVal) (tmin tmax : RVal) :
    temps_to_rescaled_uints g tmin tmax =
      temps_to_rescaled_uints (g.map nanToZero) tmin tmax ∧
    nanToNum RVal.pinf = RVal.fin DBL_MAX := by
  have hcomp : nanToNum ∘ nanToZero = nanToNum := by
    funext v; cases v <;> rfl
  refine ⟨?_, rfl⟩
  simp [temps_to_rescaled_uints, rescaleGrid, List.map_map, hcomp]

/-- C4: the forward interpolation cycle does not visit all 7 modes — it
indexes the declaration-order list by the cv2 payload value, and since
`INTER_AREA`/`INTER_CUBIC` carry the swapped values 3/2, `next` maps
`INTER_CUBIC` to itself, 7 forward steps from `INTER_NEAREST` do not return
to the start, and `INTER_CUBIC` is never reached from `INTER_NEAREST`. -/
theorem interp_cycle_misses_modes :
    Interpolation.next Interpolation.INTER_CUBIC = Interpolation.INTER_CUBIC ∧
    Interpolation.next^[7] Interpolation.INTER_NEAREST ≠ Interpolation.INTER_NEAREST ∧
    (∀ k : Fin 8,
      Interpolation.next^[k.1] Interpolation.INTER_NEAREST ≠ Interpolation.INTER_CUBIC) := by
  decide

/-- C5: the colormap forward-then-backward round-trip is the identity for
every starting index 0..8, but the interpolation round-trip fails:
`prev (next INTER_LINEAR)` is `INTER_AREA`, not `INTER_LINEAR` (the same
value/position swap as in the C4 bug). -/
theorem colormap_roundtrip_interp_roundtrip_fails :
    (∀ i : Fin 9, change_colormap (change_colormap (i.1 : ℤ) true) false = (i.1 : ℤ)) ∧
    Interpolation.prev (Interpolation.next Interpolation.INTER_LINEAR) =
      Interpolation.INTER_AREA ∧
    Interpolation.prev (Interpolation.next Interpolation.INTER_LINEAR) ≠
      Interpolation.INTER_LINEAR := by
  decide

/-- C7: a failed producer iteration (any exception from
`update_image_frame`) leaves the published slot unchanged, and a run of the
producer loop over any sequence of iteration outcomes publishes exactly what
the error-free subsequence publishes — errors are skipped, the loop
continues, and the pipeline never loses the previously published frame. -/
theorem transient_error_keeps_frame (slot : Option Frame) (e : String)
    (results : List (Except String Frame)) :
    pullImagesStep slot (Except.error e) = slot ∧
    results.foldl pullImagesStep slot =
      (results.filter (fun r => r.isOk)).foldl pullImagesStep slot := by
  refine ⟨rfl, ?_⟩
  induction results generalizing slot with
  | nil => rfl
  | cons r t ih =>
    cases r with
    | ok f => simpa [List.filter_cons, Except.isOk, pullImagesStep] using ih (some f)
    | error e2 => simpa [List.filter_cons, Except.isOk, pullImagesStep] using ih slot

/-- The NaN-propagating minimum is idempotent. -/
theorem rminOp_self (t : RVal) : RVal.rminOp t t = t := by
  cases t <;> simp [RVal.rminOp]

/-- The NaN-propagating maximum is idempotent. -/
theorem rmaxOp_self (t : RVal) : RVal.rmaxOp t t = t := by
  cases t <;> simp [RVal.rmaxOp]

/-- Reducing a uniform list with the numpy minimum returns the common value. -/
theorem foldl_rminOp_uniform (t : RVal) (l : List RVal) (h : ∀ v ∈ l, v = t) :
    l.foldl RVal.rminOp t = t := by
  induction l with
  | nil => rfl
  | cons a l ih =>
    have ha : a = t := h a (List.mem_cons_self a l)
    rw [List.foldl_cons, ha, rminOp_self]
    exact ih fun v hv => h v (List.mem_cons_of_mem _ hv)

/-- Reducing a uniform list with the numpy maximum returns the common value. -/
theorem foldl_rmaxOp_uniform (t : RVal) (l : List RVal) (h : ∀ v ∈ l, v = t) :
    l.foldl RVal.rmaxOp t = t := by
  induction l with
  | nil => rfl
  | cons a l ih =>
    have ha : a = t := h a (List.mem_cons_self a l)
    rw [List.foldl_cons, ha, rmaxOp_self]
    exact ih fun v hv => h v (List.mem_cons_of_mem _ hv)

/-- The `DBL_MAX` literal is the float64 maximum `2^1024 - 2^971`. -/
theorem DBL_MAX_eq_pow : DBL_MAX = 2 ^ 1024 - 2 ^ 971 := by norm_num [DBL_MAX]

/-- The float64 maximum is positive. -/
theorem DBL_MAX_pos : (0 : ℚ) < DBL_MAX := by norm_num [DBL_MAX]

/-- Exact results inside the float64 range are not changed by the rounding
back into float64. -/
theorem toF64_of_abs_le {q : ℚ} (h1 : -DBL_MAX ≤ q) (h2 : q ≤ DBL_MAX) :
    RVal.toF64 q = RVal.fin q := by
  unfold RVal.toF64
  rw [if_neg (not_lt.mpr h2), if_neg (not_lt.mpr h1)]

/-- On a uniform field the rescale of the common value is the byte 0: the
numerator becomes 0 (or NaN-tainted), the denominator 0 or NaN, the IEEE
quotient is NaN, and the uint8 cast of NaN is 0. -/
theorem rescaleElem_uniform_zero (t : RVal) : rescaleElem t t (nanToNum t) = 0 := by
  cases t with
  | fin c =>
      show uint8Cast (RVal.rdiv (RVal.rmul (RVal.rsub (RVal.fin c) (RVal.fin c)) (RVal.fin 255))
        (RVal.rsub (RVal.fin c) (RVal.fin c))) = 0
      rw [show RVal.rsub (RVal.fin c) (RVal.fin c) = RVal.fin 0 by
        show RVal.toF64 (c - c) = RVal.fin 0
        rw [sub_self]
        exact toF64_of_abs_le (by linarith [DBL_MAX_pos]) (by linarith [DBL_MAX_pos])]
      rw [show RVal.rmul (RVal.fin 0) (RVal.fin 255) = RVal.fin 0 by
        show RVal.toF64 (0 * 255) = RVal.fin 0
        rw [zero_mul]
        exact toF64_of_abs_le (by linarith [DBL_MAX_pos]) (by linarith [DBL_MAX_pos])]
      norm_num [RVal.rdiv, uint8Cast]
  | nan => rfl
  | pinf =>
      norm_num [rescaleElem, nanToNum, RVal.rsub, RVal.rmul, RVal.rdiv, uint8Cast]
  | ninf =>
      norm_num [rescaleElem, nanToNum, RVal.rsub, RVal.rmul, RVal.rdiv, uint8Cast]

/-- On a uniform grid the whole rescale produces only zeros. -/
theorem rescaleGrid_uniform (g : List RVal) (t : RVal) (h : ∀ v ∈ g, v = t) :
    rescaleGrid g t t = List.replicate g.length 0 := by
  unfold rescaleGrid
  rw [List.map_map]
  induction g with
  | nil => rfl
  | cons a l ih =>
    have ha : a = t := h a (List.mem_cons_self a l)
    rw [List.map_cons, List.length_cons, List.replicate_succ]
    refine congrArg₂ _ ?_ (ih fun v hv => h v (List.mem_cons_of_mem _ hv))
    rw [Function.comp_apply, ha]
    exact rescaleElem_uniform_zero t

/-- C3: on every 768-element uniform raw grid (`temp_max == temp_min`) the
normalizer returns the all-zero grid with no exception, and that is also
what the full `_pull_raw_image` pipeline publishes; the output is bytes, so
no NaN is propagated to consumers. -/
theorem uniform_field_all_zero (g : List RVal) (t : RVal)
    (hlen : g.length = 24 * 32) (huni : ∀ v ∈ g, v = t) :
    temps_to_rescaled_uints g t t = Except.ok (List.replicate 768 0) ∧
    (pull_raw_image g).1 = List.replicate 768 0 := by
  have hres : rescaleGrid g t t = List.replicate 768 0 := by
    rw [rescaleGrid_uniform g t huni, hlen]
  have hok : temps_to_rescaled_uints g t t = Except.ok (List.replicate 768 0) := by
    unfold temps_to_rescaled_uints
    rw [if_pos hlen, hres]
  have hmin : npMin g = t := by
    cases g with
    | nil => simp at hlen
    | cons a l =>
      have ha : a = t := huni a (List.mem_cons_self a l)
      unfold npMin
      rw [ha]
      exact foldl_rminOp_uniform t l fun v hv => huni v (List.mem_cons_of_mem _ hv)
  have hmax : npMax g = t := by
    cases g with
    | nil => simp at hlen
    | cons a l =>
      have ha : a = t := huni a (List.mem_cons_self a l)
      unfold npMax
      rw [ha]
      exact foldl_rmaxOp_uniform t l fun v hv => huni v (List.mem_cons_of_mem _ hv)
  refine ⟨hok, ?_⟩
  show scale_image_temps g (npMin g) (npMax g) = List.replicate 768 0
  rw [hmin, hmax]
  unfold scale_image_temps
  rw [hok]

/-- C3 witness: the uniform 20-degree grid normalizes to all zeros through
both the normalizer and the full pipeline. -/
theorem uniform_field_all_zero_witness :
    temps_to_rescaled_uints (List.replicate 768 (RVal.fin 20)) (RVal.fin 20) (RVal.fin 20) =
      Except.ok (List.replicate 768 0) ∧
    (pull_raw_image (List.replicate 768 (RVal.fin 20))).1 = List.replicate 768 0 :=
  uniform_field_all_zero _ _ (by norm_num)
    (fun v hv => List.eq_of_mem_replicate hv)

/-- Both cycle directions keep the colormap index inside `[0, 9)`. -/
theorem change_colormap_bounds (i : ℤ) (f : Bool) (h0 : 0 ≤ i)
    (h9 : i < (colormap_list.length : ℤ)) :
    0 ≤ change_colormap i f ∧ change_colormap i f < (colormap_list.length : ℤ) := by
  have hlen : colormap_list.length = 9 := rfl
  unfold change_colormap
  rw [hlen] at h9 ⊢
  cases f <;> simp only [Bool.false_eq_true, if_true, if_false] <;> split_ifs <;> omega

/-- Every apply of a control operation keeps the colormap index in range. -/
theorem applyControl_preserves (s : RenderState) (op : ControlOp)
    (h0 : 0 ≤ s.colormap_index) (h9 : s.colormap_index < (colormap_list.length : ℤ)) :
    0 ≤ (applyControl s op).colormap_index ∧
      (applyControl s op).colormap_index < (colormap_list.length : ℤ) := by
  cases op <;>
    simp only [applyControl] <;>
    first
      | exact change_colormap_bounds _ _ h0 h9
      | exact ⟨h0, h9⟩

/-- Every interpolation mode is one of the fixed 7-element ordered set. -/
theorem interp_mem_list (m : Interpolation) : m ∈ interpolation_list := by
  cases m <;> decide

/-- C8: from any state with the colormap index in `[0, colormap_count)`,
every sequence of cycle/toggle operations keeps the index in range, the
interpolation mode stays one of the fixed 7 modes, and cycling backward
from index 0 yields `colormap_count - 1`, never a negative index. -/
theorem render_state_inv (s : RenderState) (ops : List ControlOp)
    (h0 : 0 ≤ s.colormap_index) (h9 : s.colormap_index < (colormap_list.length : ℤ)) :
    (0 ≤ (ops.foldl applyControl s).colormap_index ∧
      (ops.foldl applyControl s).colormap_index < (colormap_list.length : ℤ)) ∧
    (ops.foldl applyControl s).interpolation ∈ interpolation_list ∧
    change_colormap 0 false = (colormap_list.length : ℤ) - 1 := by
  refine ⟨?_, interp_mem_list _, by decide⟩
  induction ops generalizing s with
  | nil => exact ⟨h0, h9⟩
  | cons op t ih =>
    have h := applyControl_preserves s op h0 h9
    simpa [List.foldl_cons] using ih (applyControl s op) h.1 h.2

/-- C8 witness: one backward colormap cycle from the initial state (index 0,
cubic interpolation) keeps the invariant, and lands the index at 8. -/
theorem render_state_inv_witness :
    (0 ≤ ([ControlOp.cycleColormapBack].foldl applyControl
        ⟨0, Interpolation.INTER_CUBIC, true, false⟩).colormap_index ∧
      ([ControlOp.cycleColormapBack].foldl applyControl
        ⟨0, Interpolation.INTER_CUBIC, true, false⟩).colormap_index <
        (colormap_list.length : ℤ)) ∧
    ([ControlOp.cycleColormapBack].foldl applyControl
        ⟨0, Interpolation.INTER_CUBIC, true, false⟩).interpolation ∈ interpolation_list ∧
    change_colormap 0 false = (colormap_list.length : ℤ) - 1 :=
  render_state_inv ⟨0, Interpolation.INTER_CUBIC, true, false⟩
    [ControlOp.cycleColormapBack] (by decide) (by decide)

/-- The fuelled retry loop succeeds within `fuel` iterations starting at
attempt `k` exactly when one of the attempts `k, ..., k + fuel - 1`
succeeds. -/
theorem get_mean_temp_go_isSome (reads : ℕ → Except Unit (List ℚ)) (fuel : ℕ) :
    ∀ k, (get_mean_temp_go reads k fuel).isSome = true ↔
      ∃ d, d < fuel ∧ (reads (k + d)).isOk = true := by
  induction fuel with
  | zero => intro k; simp [get_mean_temp_go]
  | succ n ih =>
    intro k
    cases hr : reads k with
    | ok frame =>
      constructor
      · intro _
        exact ⟨0, Nat.succ_pos n, by simp [hr, Except.isOk, Except.toBool]⟩
      · intro _
        simp [get_mean_temp_go, hr]
    | error e =>
      have hstep : get_mean_temp_go reads k (n + 1) = get_mean_temp_go reads (k + 1) n := by
        simp [get_mean_temp_go, hr]
      rw [hstep, ih (k + 1)]
      constructor
      · rintro ⟨d, hd, hok⟩
        refine ⟨d + 1, by omega, ?_⟩
        have hidx : k + 1 + d = k + (d + 1) := by omega
        rwa [hidx] at hok
      · rintro ⟨d, hd, hok⟩
        cases d with
        | zero =>
          rw [Nat.add_zero, hr] at hok
          simp [Except.isOk, Except.toBool] at hok
        | succ d =>
          refine ⟨d, by omega, ?_⟩
          have hidx : k + 1 + d = k + (d + 1) := by omega
          rwa [hidx]

/-- If the first success is attempt `off + kk` then the loop returns the
mean of that frame in Celsius and Fahrenheit after `kk + 1` iterations. -/
theorem get_mean_temp_go_first_ok (reads : ℕ → Except Unit (List ℚ)) :
    ∀ (kk off : ℕ), (∀ j, j < kk → (reads (off + j)).isOk = false) →
    ∀ frame, reads (off + kk) = Except.ok frame →
    get_mean_temp_go reads off (kk + 1) = some (np_mean frame, c_to_f (np_mean frame)) := by
  intro kk
  induction kk with
  | zero =>
    intro off _ frame hok
    rw [Nat.add_zero] at hok
    simp [get_mean_temp_go, hok]
  | succ n ih =>
    intro off hfail frame hok
    have h0 : (reads off).isOk = false := by
      have := hfail 0 (Nat.succ_pos n)
      rwa [Nat.add_zero] at this
    cases hr : reads off with
    | ok f =>
      rw [hr] at h0
      simp [Except.isOk, Except.toBool] at h0
    | error e =>
      have hstep : get_mean_temp_go reads off (n + 1 + 1) = get_mean_temp_go reads (off + 1) (n + 1) := by
        simp [get_mean_temp_go, hr]
      rw [hstep]
      refine ih (off + 1) ?_ frame ?_
      · intro j hj
        have := hfail (j + 1) (by omega)
        have hidx : off + (j + 1) = off + 1 + j := by omega
        rwa [hidx] at this
      · have hidx : off + (n + 1) = off + 1 + n := by omega
        rwa [hidx] at hok

/-- C10: `get_mean_temp` retries `get_raw_data` without bound on
`ValueError` — it returns (with the mean temperature in both Celsius and
Fahrenheit, converted by `c_to_f`) exactly when some attempt eventually
succeeds, and under a sensor whose every attempt raises `ValueError` it
never returns, for any amount of fuel. -/
theorem get_mean_temp_terminates_iff (reads : ℕ → Except Unit (List ℚ)) :
    ((∃ fuel, (get_mean_temp reads fuel).isSome = true) ↔ ∃ k, (reads k).isOk = true) ∧
    ((∀ k, (reads k).isOk = false) → ∀ fuel, get_mean_temp reads fuel = none) ∧
    (∀ k frame, (∀ j, j < k → (reads j).isOk = false) → reads k = Except.ok frame →
      get_mean_temp reads (k + 1) = some (np_mean frame, c_to_f (np_mean frame))) := by
  refine ⟨?_, ?_, ?_⟩
  · constructor
    · rintro ⟨fuel, h⟩
      obtain ⟨d, _, hok⟩ := (get_mean_temp_go_isSome reads fuel 0).1 h
      exact ⟨d, by simpa using hok⟩
    · rintro ⟨k, hok⟩
      refine ⟨k + 1, (get_mean_temp_go_isSome reads (k + 1) 0).2 ⟨k, by omega, by simpa⟩⟩
  · intro hall fuel
    cases hm : get_mean_temp reads fuel with
    | none => rfl
    | some v =>
      have hs : (get_mean_temp_go reads 0 fuel).isSome = true := by
        unfold get_mean_temp at hm
        rw [hm]
        rfl
      obtain ⟨d, _, hok⟩ := (get_mean_temp_go_isSome reads fuel 0).1 hs
      rw [hall (0 + d)] at hok
      exact absurd hok (by simp)
  · intro k frame hfail hok
    have := get_mean_temp_go_first_ok reads k 0 (fun j hj => by simpa using hfail j hj)
      frame (by simpa using hok)
    exact this

/-- C10 witness: a sensor that always raises `ValueError` makes the loop
return nothing after 3 iterations of fuel. -/
theorem get_mean_temp_terminates_iff_witness :
    get_mean_temp (fun _ => Except.error ()) 3 = none :=
  (get_mean_temp_terminates_iff (fun _ => Except.error ())).2.1 (fun _ => rfl) 3

/-- The spec formula of the C6 claim: byte of
`(v - temp_min) * 255 / (temp_max - temp_min)` clamped to `[0, 255]`. -/
def spec_clamped_byte (temp_min temp_max v : ℚ) : ℕ :=
  (max 0 (min 255 (ratTrunc ((v - temp_min) * 255 / (temp_max - temp_min))))).toNat

/-- On nonnegative rationals the C truncation is the floor. -/
theorem ratTrunc_of_nonneg {q : ℚ} (h : 0 ≤ q) : ratTrunc q = ⌊q⌋ :=
  if_neg (not_lt.mpr h)

/-- For values already in `[0, 255]` the wrap-around uint8 cast agrees with
truncate-then-clamp. -/
theorem uint8Cast_fin_of_range {q : ℚ} (h0 : 0 ≤ q) (h255 : q ≤ 255) :
    uint8Cast (RVal.fin q) = (max 0 (min 255 (ratTrunc q))).toNat := by
  have ht : ratTrunc q = ⌊q⌋ := ratTrunc_of_nonneg h0
  have hfl0 : 0 ≤ ⌊q⌋ := Int.floor_nonneg.mpr h0
  have hfl255 : ⌊q⌋ ≤ 255 := by
    calc ⌊q⌋ ≤ ⌊(255 : ℚ)⌋ := Int.floor_le_floor h255
    _ = 255 := by norm_num
  show ((ratTrunc q).emod 256).toNat = (max 0 (min 255 (ratTrunc q))).toNat
  rw [ht, show (⌊q⌋.emod 256) = ⌊q⌋ % 256 from rfl,
    Int.emod_eq_of_lt hfl0 (by omega), min_eq_right hfl255, max_eq_right hfl0]

/-- Elementwise, for a value between the true minimum and maximum, with the
scaled range inside the float64 domain so that no intermediate overflows,
the code computes exactly the clamped-byte spec formula. -/
theorem rescaleElem_eq_spec {m M v : ℚ} (hmv : m ≤ v) (hvM : v ≤ M) (hlt : m < M)
    (hOv : (M - m) * 255 ≤ DBL_MAX) :
    rescaleElem (RVal.fin m) (RVal.fin M) (RVal.fin v) = spec_clamped_byte m M v := by
  have hMm : (0 : ℚ) < M - m := sub_pos.mpr hlt
  have hne : M - m ≠ 0 := ne_of_gt hMm
  have hvm0 : 0 ≤ v - m := sub_nonneg.mpr hmv
  have hvmM : v - m ≤ M - m := sub_le_sub_right hvM m
  have hMm255 : M - m ≤ (M - m) * 255 := by nlinarith
  have h255DM : (255 : ℚ) ≤ DBL_MAX := by norm_num [DBL_MAX]
  have hnum_le : (v - m) * 255 ≤ DBL_MAX :=
    le_trans (mul_le_mul_of_nonneg_right hvmM (by norm_num)) hOv
  have hq0 : 0 ≤ (v - m) * 255 / (M - m) :=
    div_nonneg (mul_nonneg hvm0 (by norm_num)) hMm.le
  have hq255 : (v - m) * 255 / (M - m) ≤ 255 := by
    rw [div_le_iff hMm]
    nlinarith
  show uint8Cast (RVal.rdiv (RVal.rmul (RVal.rsub (RVal.fin v) (RVal.fin m)) (RVal.fin 255))
    (RVal.rsub (RVal.fin M) (RVal.fin m))) = spec_clamped_byte m M v
  rw [show RVal.rsub (RVal.fin v) (RVal.fin m) = RVal.fin (v - m) from
      toF64_of_abs_le (by linarith [DBL_MAX_pos]) (by linarith),
    show RVal.rmul (RVal.fin (v - m)) (RVal.fin 255) = RVal.fin ((v - m) * 255) from
      toF64_of_abs_le (by nlinarith [DBL_MAX_pos]) hnum_le,
    show RVal.rsub (RVal.fin M) (RVal.fin m) = RVal.fin (M - m) from
      toF64_of_abs_le (by linarith [DBL_MAX_pos]) (by linarith),
    show RVal.rdiv (RVal.fin ((v - m) * 255)) (RVal.fin (M - m)) =
      RVal.fin ((v - m) * 255 / (M - m)) by
        rw [show RVal.rdiv (RVal.fin ((v - m) * 255)) (RVal.fin (M - m)) =
          RVal.toF64 ((v - m) * 255 / (M - m)) by simp [RVal.rdiv, hne]]
        exact toF64_of_abs_le (by linarith [DBL_MAX_pos]) (by linarith)]
  exact uint8Cast_fin_of_range hq0 hq255

/-- The clamped-byte formula at the minimum value is 0. -/
theorem spec_clamped_byte_at_min {m M : ℚ} : spec_clamped_byte m M m = 0 := by
  unfold spec_clamped_byte
  rw [sub_self, zero_mul, zero_div]
  norm_num [ratTrunc]

/-- The clamped-byte formula at the maximum value is 255. -/
theorem spec_clamped_byte_at_max {m M : ℚ} (hlt : m < M) : spec_clamped_byte m M M = 255 := by
  unfold spec_clamped_byte
  have hne : M - m ≠ 0 := ne_of_gt (sub_pos.mpr hlt)
  rw [mul_comm, mul_div_assoc, div_self hne, mul_one]
  norm_num [ratTrunc]
  rfl

set_option maxRecDepth 8000 in
/-- C6 counterexample: the 768-cell raw grid with one +Inf reading and 1
elsewhere satisfies the claim's precondition — the code computes
`temp_min = 1`, `temp_max = +Inf`, and the float comparison
`temp_max > temp_min` holds — yet the normalized value at the arg-max cell
(position 0) is 0, not 255: `np.nan_to_num` turns the Inf into `DBL_MAX`,
the numerator `(DBL_MAX - 1) * 255` overflows to +Inf, the denominator is
+Inf, Inf/Inf is NaN, and the uint8 cast of NaN is 0. -/
theorem inf_reading_breaks_span :
    RVal.rlt (pull_raw_image gridWithInf).2.1 (pull_raw_image gridWithInf).2.2 = true ∧
    (pull_raw_image gridWithInf).2.1 = RVal.fin 1 ∧
    (pull_raw_image gridWithInf).2.2 = RVal.pinf ∧
    (pull_raw_image gridWithInf).1.getD 0 255 = 0 := by
  have hmin : npMin gridWithInf = RVal.fin 1 := by rfl
  have hmax : npMax gridWithInf = RVal.pinf := by rfl
  refine ⟨?_, hmin, hmax, ?_⟩
  · rfl
  · have hcell : rescaleElem (RVal.fin 1) RVal.pinf (nanToNum RVal.pinf) = 0 := by
      show uint8Cast (RVal.rdiv (RVal.rmul (RVal.rsub (RVal.fin DBL_MAX) (RVal.fin 1))
        (RVal.fin 255)) (RVal.rsub RVal.pinf (RVal.fin 1))) = 0
      rw [show RVal.rsub (RVal.fin DBL_MAX) (RVal.fin 1) = RVal.fin (DBL_MAX - 1) from
        toF64_of_abs_le (by norm_num [DBL_MAX]) (by norm_num)]
      rw [show RVal.rmul (RVal.fin (DBL_MAX - 1)) (RVal.fin 255) = RVal.pinf by
        show RVal.toF64 ((DBL_MAX - 1) * 255) = RVal.pinf
        unfold RVal.toF64
        rw [if_pos (show DBL_MAX < (DBL_MAX - 1) * 255 by norm_num [DBL_MAX])]]
      rfl
    have hgrid : (pull_raw_image gridWithInf).1 =
        rescaleGrid gridWithInf (RVal.fin 1) RVal.pinf := by
      show scale_image_temps gridWithInf (npMin gridWithInf) (npMax gridWithInf) =
        rescaleGrid gridWithInf (RVal.fin 1) RVal.pinf
      rw [hmin, hmax]
      rfl
    rw [hgrid,
      show (rescaleGrid gridWithInf (RVal.fin 1) RVal.pinf).getD 0 255 =
        rescaleElem (RVal.fin 1) RVal.pinf (nanToNum RVal.pinf) from rfl]
    exact hcell

/-- C6 amended: on every raw grid of finite readings whose min is `m` at
position `i` and whose max is `M` at position `j`, with `m < M` and the
scaled range `(M - m) * 255` inside the float64 domain (so that no
intermediate value overflows, unlike the +Inf and extreme-magnitude grids of
the counterexample), the normalizer computes exactly the spec's clamped-byte
formula at every cell, and the output holds 0 at the arg-min position and
255 at the arg-max position. -/
theorem normalize_spans_full_range (g : List ℚ) (m M : ℚ) (i j : Fin g.length)
    (hmem : ∀ v ∈ g, m ≤ v ∧ v ≤ M) (hi : g.get i = m) (hj : g.get j = M) (hlt : m < M)
    (hOv : (M - m) * 255 ≤ DBL_MAX) :
    rescaleGrid (g.map RVal.fin) (RVal.fin m) (RVal.fin M) =
      g.map (spec_clamped_byte m M) ∧
    (rescaleGrid (g.map RVal.fin) (RVal.fin m) (RVal.fin M)).getD i.1 255 = 0 ∧
    (rescaleGrid (g.map RVal.fin) (RVal.fin m) (RVal.fin M)).getD j.1 0 = 255 := by
  have hmap : rescaleGrid (g.map RVal.fin) (RVal.fin m) (RVal.fin M) =
      g.map (spec_clamped_byte m M) := by
    unfold rescaleGrid
    rw [List.map_map, List.map_map]
    apply List.map_congr_left
    intro v hv
    obtain ⟨h1, h2⟩ := hmem v hv
    show rescaleElem (RVal.fin m) (RVal.fin M) (nanToNum (RVal.fin v)) = _
    rw [show nanToNum (RVal.fin v) = RVal.fin v from rfl]
    exact rescaleElem_eq_spec h1 h2 hlt hOv
  refine ⟨hmap, ?_, ?_⟩
  · have hlen : i.1 < (g.map (spec_clamped_byte m M)).length := by simpa using i.2
    rw [hmap, List.getD_eq_get _ _ hlen, List.get_map]
    have hfin : (⟨i.1, by simpa using hlen⟩ : Fin g.length) = i := Fin.ext rfl
    rw [hfin, hi]
    exact spec_clamped_byte_at_min
  · have hlen : j.1 < (g.map (spec_clamped_byte m M)).length := by simpa using j.2
    rw [hmap, List.getD_eq_get _ _ hlen, List.get_map]
    have hfin : (⟨j.1, by simpa using hlen⟩ : Fin g.length) = j := Fin.ext rfl
    rw [hfin, hj]
    exact spec_clamped_byte_at_max hlt

/-- C6 witness: the two-cell grid [20, 30] rescales to [0, 255], matching
the clamped formula at both cells. -/
theorem normalize_spans_full_range_witness :
    rescaleGrid ([20, 30].map RVal.fin) (RVal.fin 20) (RVal.fin 30) =
      [20, 30].map (spec_clamped_byte 20 30) ∧
    (rescaleGrid ([20, 30].map RVal.fin) (RVal.fin 20) (RVal.fin 30)).getD 0 255 = 0 ∧
    (rescaleGrid ([20, 30].map RVal.fin) (RVal.fin 20) (RVal.fin 30)).getD 1 0 = 255 :=
  normalize_spans_full_range [20, 30] 20 30 ⟨0, by decide⟩ ⟨1, by decide⟩
    (by decide) (by decide) (by decide) (by decide) (by norm_num [DBL_MAX])

/-- C9: `_process_raw_image` selects its path by interpolation mode —
`PURE_SCIPY` zooms the grid by 25 then colorizes; `SCIPY_CV2_MIXED` zooms by
10, colorizes, then fast-resizes to 800x600 with `cv2.INTER_CUBIC`; every
other mode colorizes at native resolution then resizes to 800x600 with that
mode's cv2 filter value; every path then mirrors horizontally, and the
edge-preserving `bilateralFilter(15, 80, 80)` pass occurs in the trace iff
the filter flag is enabled. -/
theorem process_raw_image_paths (m : Interpolation) (idx : Fin colormap_list.length)
    (f : Bool) (hp : m ≠ Interpolation.PURE_SCIPY) (hs : m ≠ Interpolation.SCIPY_CV2_MIXED) :
    process_raw_image Interpolation.PURE_SCIPY idx f =
      [ImageOp.zoom 25, ImageOp.applyColorMap (colormap_list.get idx),
       ImageOp.flipHorizontal] ++ (if f then [ImageOp.bilateralFilter 15 80 80] else []) ∧
    process_raw_image Interpolation.SCIPY_CV2_MIXED idx f =
      [ImageOp.zoom 10, ImageOp.applyColorMap (colormap_list.get idx),
       ImageOp.resize 800 600 2, ImageOp.flipHorizontal]
        ++ (if f then [ImageOp.bilateralFilter 15 80 80] else []) ∧
    process_raw_image m idx f =
      [ImageOp.applyColorMap (colormap_list.get idx),
       ImageOp.resize 800 600 m.value, ImageOp.flipHorizontal]
        ++ (if f then [ImageOp.bilateralFilter 15 80 80] else []) ∧
    (∀ m', ImageOp.bilateralFilter 15 80 80 ∈ process_raw_image m' idx f ↔ f = true) := by
  refine ⟨?_, ?_, ?_, ?_⟩
  · cases f <;> rfl
  · cases f <;> rfl
  · cases m <;>
      first
        | exact absurd rfl hp
        | exact absurd rfl hs
        | (cases f <;> rfl)
  · intro m'
    cases m' <;> cases f <;> simp [process_raw_image]

/-- C9 witness: the nearest-neighbour mode with colormap 0 and the filter on
produces the colorize, fast-resize, mirror, bilateral-filter trace. -/
theorem process_raw_image_paths_witness :
    process_raw_image Interpolation.INTER_NEAREST ⟨0, by decide⟩ true =
      [ImageOp.applyColorMap "jet", ImageOp.resize 800 600 0, ImageOp.flipHorizontal,
       ImageOp.bilateralFilter 15 80 80] := by
  have h := process_raw_image_paths Interpolation.INTER_NEAREST ⟨0, by decide⟩ true
    (by decide) (by decide)
  simpa using h.2.2.1
